import Mathlib

/-!
Shallow embedding of the rtmidi2 wrapper (src/unnamed/part_003): the
MidiInMulti multi-port input hub, its port-lifecycle and callback-dispatch
logic, the send_pitchbend path of MidiOut, and the splitchannel and
fnmatch-based utilities.  Python ints holding MIDI bytes are modelled as Nat;
the native RtMidiIn objects owned by the hub are modelled as records in an
arena (list) that is only appended to, so a C++ pointer becomes a stable
index into that arena.  Native-layer effects (openPort, closePort,
setCallback, cancelCallback) are recorded in an explicit trace so that
ordering and cancellation claims are statements about the trace.
-/

/-- Python exception values raised by the code under test.  The source raises
ValueError with fixed messages; AttributeError models inspect.getargspec
failing on a non-introspectable callable; TypeError models failures of the
Python runtime itself (such as calling a non-callable). -/
inductive PyErr where
  | valueError (msg : String)
  | typeError (msg : String)
  | attributeError (msg : String)
  | notImplementedError (msg : String)
deriving DecidableEq

/-- Embedding of a Python callable as far as the hub inspects it: an identity
(so that distinct handlers are distinguishable) and the declared argument
list as seen by inspect.getargspec; none models a callable for which
getargspec raises (for example a builtin). -/
structure PyFunc where
  fid : Nat
  argspec : Option (List String)
deriving DecidableEq

/-- Translation of _func_get_numargs (src part_003 lines 583..586): the
number of declared arguments not named self; none when inspect.getargspec
raises AttributeError. -/
def _func_get_numargs (func : PyFunc) : Option Nat :=
  func.argspec.map (fun args => (args.filter (fun a => a != "self")).length)

/-- The source identifier passed as the first argument of a three-argument
callback: the port display name when src_as_string is true, the port number
otherwise. -/
inductive Source where
  | name (s : String)
  | index (i : Nat)
deriving DecidableEq

/-- A native callback registration on one RtMidiIn handle: either the plain
midi_in_callback trampoline closing over the Python callback, or the
midi_in_callback_with_src trampoline closing over the (source, callback)
tuple captured at registration time. -/
inductive NativeReg where
  | plain (cb : PyFunc)
  | withSrc (src : Source) (cb : PyFunc)
deriving DecidableEq

/-- One native RtMidiIn object created by MidiInMulti.open_port: the port
index it was opened for, whether the native connection is still open, and
the currently registered native callback (none after cancelCallback). -/
structure NativeHandle where
  srcport : Nat
  isOpen : Bool
  registered : Option NativeReg
deriving DecidableEq

/-- Default handle used with List.getD; it is closed and unregistered, so an
out-of-arena index behaves like a dead connection. -/
def hdefault : NativeHandle := { srcport := 0, isOpen := false, registered := none }

/-- Native-layer calls made by the hub, recorded as a trace. -/
inductive NCall where
  | openPort (id : Nat) (port : Nat)
  | closePort (id : Nat)
  | cancelCallback (id : Nat)
  | setCallback (id : Nat) (reg : NativeReg)
deriving DecidableEq

/-- The port provider (the wrapped RtMidi library, reached through the
inspector handle): an enumeration of port names by index. -/
structure Provider where
  portNames : List String
deriving DecidableEq

/-- RtMidi getPortCount on the inspector handle. -/
def Provider.getPortCount (p : Provider) : Nat := p.portNames.length

/-- RtMidi getPortName on the inspector handle; RtMidi returns an empty
string for an index it cannot name. -/
def Provider.getPortName (p : Provider) (i : Nat) : String := p.portNames.getD i ""

/-- State of a MidiInMulti object (src part_003 lines 275..563).  handles is
the arena of every native RtMidiIn ever created by this hub (append-only, so
arena indices are stable); ptrs mirrors the C++ vector of RtMidiIn pointers
as arena indices; openedports mirrors the _openedports Python list;
hascallback mirrors the hascallback dict as an association list;
py_callback and qualified_callbacks mirror the fields of the same name. -/
structure MidiInMulti where
  handles : List NativeHandle
  ptrs : List Nat
  openedports : List Nat
  hascallback : List (Nat × Bool)
  py_callback : Option PyFunc
  qualified_callbacks : List (Source × PyFunc)
deriving DecidableEq

/-- State of a freshly constructed MidiInMulti (after __cinit__ and
__init__). -/
def MidiInMulti.initial : MidiInMulti :=
  { handles := [], ptrs := [], openedports := [], hascallback := [],
    py_callback := none, qualified_callbacks := [] }

/-- Python dict get with default False, over the association-list model. -/
def dget (d : List (Nat × Bool)) (k : Nat) : Bool :=
  match d with
  | [] => false
  | (k2, v) :: rest => if k = k2 then v else dget rest k

/-- Python dict item assignment over the association-list model: replace the
existing binding for the key, else append. -/
def dset (d : List (Nat × Bool)) (k : Nat) (v : Bool) : List (Nat × Bool) :=
  match d with
  | [] => [(k, v)]
  | (k2, v2) :: rest => if k = k2 then (k, v) :: rest else (k2, v2) :: dset rest k v

/-- Replace the handle at arena index id by f applied to it; out-of-range
indices leave the arena unchanged. -/
def updAt (f : NativeHandle → NativeHandle) : List NativeHandle → Nat → List NativeHandle
  | [], _ => []
  | h :: t, 0 => f h :: t
  | h :: t, n + 1 => h :: updAt f t n

/-- Native cancelCallback on the handle at arena index id. -/
def MidiInMulti.cancelAt (hub : MidiInMulti) (id : Nat) : MidiInMulti :=
  { hub with handles := updAt (fun h => { h with registered := none }) hub.handles id }

/-- Native setCallback on the handle at arena index id. -/
def MidiInMulti.registerAt (hub : MidiInMulti) (id : Nat) (r : NativeReg) : MidiInMulti :=
  { hub with handles := updAt (fun h => { h with registered := some r }) hub.handles id }

/-- Native closePort on the handle at arena index id. -/
def MidiInMulti.closeHandle (hub : MidiInMulti) (id : Nat) : MidiInMulti :=
  { hub with handles := updAt (fun h => { h with isOpen := false }) hub.handles id }

/-- Loop body of _cancel_callbacks (src lines 488..496): for each open slot,
cancel the native callback when the hascallback dict says one is active, and
record False in the dict. -/
def cancelLoop : List (Nat × Nat) → MidiInMulti → MidiInMulti × List NCall
  | [], hub => (hub, [])
  | (id, port) :: rest, hub =>
    if dget hub.hascallback port then
      let hub2 := MidiInMulti.cancelAt hub id
      let hub3 := { hub2 with hascallback := dset hub2.hascallback port false }
      let r := cancelLoop rest hub3
      (r.1, NCall.cancelCallback id :: r.2)
    else
      cancelLoop rest hub

/-- Translation of MidiInMulti._cancel_callbacks (src lines 488..496). -/
def MidiInMulti._cancel_callbacks (hub : MidiInMulti) : MidiInMulti × List NCall :=
  let r := cancelLoop (hub.ptrs.zip hub.openedports) hub
  ({ r.1 with py_callback := none }, r.2)

/-- Loop of the two-argument branch of the callback property setter (src
lines 479..486): cancel an active callback, then register midi_in_callback
with the Python callback as context and mark the port in hascallback. -/
def regLoop (cb : PyFunc) : List (Nat × Nat) → MidiInMulti → MidiInMulti × List NCall
  | [], hub => (hub, [])
  | (id, port) :: rest, hub =>
    let pre : MidiInMulti × List NCall :=
      if dget hub.hascallback port then (MidiInMulti.cancelAt hub id, [NCall.cancelCallback id])
      else (hub, [])
    let hub2 := MidiInMulti.registerAt pre.1 id (NativeReg.plain cb)
    let hub3 := { hub2 with hascallback := dset hub2.hascallback port true }
    let r := regLoop cb rest hub3
    (r.1, pre.2 ++ NCall.setCallback id (NativeReg.plain cb) :: r.2)

/-- Loop of _set_qualified_callback (src lines 548..560): cancel an active
callback, build the (source, callback) tuple - the port display name when
src_as_string, else the port number - append it to qualified_callbacks,
register midi_in_callback_with_src with that tuple, and mark the port. -/
def qualLoop (prov : Provider) (cb : PyFunc) (srcAsString : Bool) :
    List (Nat × Nat) → MidiInMulti → MidiInMulti × List NCall
  | [], hub => (hub, [])
  | (id, port) :: rest, hub =>
    let pre : MidiInMulti × List NCall :=
      if dget hub.hascallback port then (MidiInMulti.cancelAt hub id, [NCall.cancelCallback id])
      else (hub, [])
    let tup : Source :=
      if srcAsString then Source.name (prov.getPortName port) else Source.index port
    let hub2 := { pre.1 with qualified_callbacks := pre.1.qualified_callbacks ++ [(tup, cb)] }
    let hub3 := MidiInMulti.registerAt hub2 id (NativeReg.withSrc tup cb)
    let hub4 := { hub3 with hascallback := dset hub3.hascallback port true }
    let r := qualLoop prov cb srcAsString rest hub4
    (r.1, pre.2 ++ NCall.setCallback id (NativeReg.withSrc tup cb) :: r.2)

/-- Translation of MidiInMulti._set_qualified_callback (src lines 535..560). -/
def MidiInMulti._set_qualified_callback (prov : Provider) (hub : MidiInMulti)
    (cb : PyFunc) (srcAsString : Bool) : MidiInMulti × List NCall :=
  let hub1 := { hub with py_callback := some cb, qualified_callbacks := [] }
  qualLoop prov cb srcAsString (hub1.ptrs.zip hub1.openedports) hub1

/-- Translation of the callback property assignment (src lines 462..486).
Assigning None runs _cancel_callbacks.  Otherwise the setter tries
_func_get_numargs: on 3 it delegates to _set_qualified_callback with the
default src_as_string=True; on AttributeError, or any other count, it falls
through to the two-argument registration path without validating. -/
def MidiInMulti.callback_assign (prov : Provider) (hub : MidiInMulti)
    (v : Option PyFunc) : MidiInMulti × List NCall :=
  match v with
  | none => MidiInMulti._cancel_callbacks hub
  | some cb =>
    match _func_get_numargs cb with
    | some numargs =>
      if numargs = 3 then MidiInMulti._set_qualified_callback prov hub cb true
      else
        let hub1 := { hub with py_callback := some cb }
        regLoop cb (hub1.ptrs.zip hub1.openedports) hub1
    | none =>
      let hub1 := { hub with py_callback := some cb }
      regLoop cb (hub1.ptrs.zip hub1.openedports) hub1

/-- Translation of MidiInMulti.open_port (src lines 378..408).  Raises
ValueError for an index beyond the provider count or one already open; on
success creates a fresh native handle, opens it, appends it to ptrs and the
index to _openedports, and - when a callback is already installed - cancels
all callbacks and reassigns the saved callback through the property setter. -/
def MidiInMulti.open_port (prov : Provider) (hub : MidiInMulti) (port : Nat) :
    Except PyErr Unit × MidiInMulti × List NCall :=
  if prov.getPortCount ≤ port then
    (Except.error (PyErr.valueError "Port out of range"), hub, [])
  else if port ∈ hub.openedports then
    (Except.error (PyErr.valueError "Port already open!"), hub, [])
  else
    let id := hub.handles.length
    let hub1 := { hub with
      handles := hub.handles ++ [{ srcport := port, isOpen := true, registered := none }],
      ptrs := hub.ptrs ++ [id],
      openedports := hub.openedports ++ [port] }
    match hub.py_callback with
    | none => (Except.ok (), hub1, [NCall.openPort id port])
    | some cb =>
      let r1 := MidiInMulti._cancel_callbacks hub1
      let r2 := MidiInMulti.callback_assign prov r1.1 (some cb)
      (Except.ok (), r2.1, NCall.openPort id port :: r1.2 ++ r2.2)

/-- Translation of MidiInMulti.close_port (src lines 449..460).  Returns 0
and does nothing when the port is not open; otherwise looks up its position,
consults the hascallback dict - the source keys this one lookup by the
position (port_index) rather than by the port number - cancels when that
lookup says so, closes the native handle, and erases the position from both
ptrs and _openedports.  Returns 1. -/
def MidiInMulti.close_port (hub : MidiInMulti) (port : Nat) :
    Nat × MidiInMulti × List NCall :=
  if port ∈ hub.openedports then
    let port_index := hub.openedports.indexOf port
    let id := hub.ptrs.getD port_index 0
    let pre : MidiInMulti × List NCall :=
      if dget hub.hascallback port_index then
        (MidiInMulti.cancelAt hub id, [NCall.cancelCallback id])
      else (hub, [])
    let hub2 := MidiInMulti.closeHandle pre.1 id
    let hub3 := { hub2 with ptrs := hub2.ptrs.eraseIdx port_index,
                            openedports := hub2.openedports.eraseIdx port_index }
    (1, hub3, pre.2 ++ [NCall.closePort id])
  else (0, hub, [])

/-- Loop of close_ports (src lines 438..443): for each open slot, cancel the
native callback when the hascallback dict (keyed by port number here) says
one is active, then close the native handle.  The dict is not updated inside
the loop; it is cleared wholesale afterwards. -/
def closeLoop : List (Nat × Nat) → MidiInMulti → MidiInMulti × List NCall
  | [], hub => (hub, [])
  | (id, port) :: rest, hub =>
    let pre : MidiInMulti × List NCall :=
      if dget hub.hascallback port then (MidiInMulti.cancelAt hub id, [NCall.cancelCallback id])
      else (hub, [])
    let hub2 := MidiInMulti.closeHandle pre.1 id
    let r := closeLoop rest hub2
    (r.1, pre.2 ++ NCall.closePort id :: r.2)

/-- Translation of MidiInMulti.close_ports (src lines 435..447).  Note that
the source resets hascallback, ptrs and _openedports but leaves py_callback
and qualified_callbacks as they are. -/
def MidiInMulti.close_ports (hub : MidiInMulti) : Nat × MidiInMulti × List NCall :=
  let r := closeLoop (hub.ptrs.zip hub.openedports) hub
  (1, { r.1 with hascallback := [], ptrs := [], openedports := [] }, r.2)

/-- Translation of MidiInMulti.set_callback (src lines 498..533): classify
the handler by its declared argument count; 2 goes through the callback
property, 3 through _set_qualified_callback, anything else raises
ValueError before touching any state. -/
def MidiInMulti.set_callback (prov : Provider) (hub : MidiInMulti)
    (cb : PyFunc) (srcAsString : Bool) : Except PyErr Unit × MidiInMulti × List NCall :=
  match _func_get_numargs cb with
  | none => (Except.error (PyErr.attributeError "inspect.getargspec"), hub, [])
  | some numargs =>
    if numargs = 2 then
      let r := MidiInMulti.callback_assign prov hub (some cb)
      (Except.ok (), r.1, r.2)
    else if numargs = 3 then
      let r := MidiInMulti._set_qualified_callback prov hub cb srcAsString
      (Except.ok (), r.1, r.2)
    else
      (Except.error (PyErr.valueError "Your callback has to have either the signature (msg, time) or the signature (source, msg, time)"), hub, [])

/-- Translation of MidiInMulti.get_message (src lines 562..563).  The source
line is: raise NotImplemented("The blocking interface is not implemented for
multiple inputs. Use the callback system").  NotImplemented is the builtin
singleton, not an exception class, and it is not callable, so evaluating the
expression raises TypeError before the raise statement can fire; the call
therefore always fails with TypeError and touches no state. -/
def MidiInMulti.get_message (hub : MidiInMulti) (gettime : Nat) :
    Except PyErr (Option (List Nat × Nat)) × MidiInMulti × List NCall :=
  (Except.error (PyErr.typeError "NotImplementedType object is not callable"), hub, [])

/-- Membership test of a character in the body of a glob character class,
with ranges written a-b as in fnmatch.translate; a dash that is first or
last in the body is literal, as in the regular expression the Python
implementation builds. -/
def inClass : List Char → Char → Bool
  | a :: '-' :: b :: rest, c => (a ≤ c && c ≤ b) || inClass rest c
  | a :: rest, c => (a == c) || inClass rest c
  | [], _ => false

/-- Scan for the closing bracket of a glob character class, returning the
body and the remainder of the pattern; none when the class is unterminated
(in which case fnmatch treats the opening bracket as a literal). -/
def findClose : List Char → Option (List Char × List Char)
  | [] => none
  | ']' :: rest => some ([], rest)
  | c :: rest =>
    match findClose rest with
    | none => none
    | some pr => some (c :: pr.1, pr.2)

/-- Full glob match of a string against a pattern, fuelled so that the
function is structurally recursive and kernel-computable.  Semantics follow
fnmatch.translate: * matches any sequence, ? any single character, [body]
a character class (leading ! negates; a ] first in the body is literal; an
unterminated [ is a literal bracket), any other character matches itself,
and the whole string must be consumed.  Every recursive call shrinks the
combined length of pattern and string, so the fuel supplied by fnmatch
below is never exhausted. -/
def gmatch : Nat → List Char → List Char → Bool
  | 0, _, _ => false
  | fuel + 1, pat, s =>
    match pat with
    | [] => s.isEmpty
    | '*' :: ps =>
      gmatch fuel ps s ||
        (match s with
         | [] => false
         | _ :: s2 => gmatch fuel ('*' :: ps) s2)
    | '?' :: ps =>
      (match s with
       | [] => false
       | _ :: s2 => gmatch fuel ps s2)
    | '[' :: ps =>
      let scan : Bool × List Char :=
        match ps with
        | '!' :: t => (true, t)
        | _ => (false, ps)
      let found : Option (List Char × List Char) :=
        match scan.2 with
        | ']' :: t =>
          (match findClose t with
           | none => none
           | some pr => some (']' :: pr.1, pr.2))
        | _ => findClose scan.2
      (match found with
       | none =>
         (match s with
          | [] => false
          | c :: s2 => (c == '[') && gmatch fuel ps s2)
       | some pr =>
         (match s with
          | [] => false
          | c :: s2 => (inClass pr.1 c != scan.1) && gmatch fuel pr.2 s2))
    | p :: ps =>
      (match s with
       | [] => false
       | c :: s2 => (p == c) && gmatch fuel ps s2)

/-- Translation of fnmatch.fnmatch(name, pattern) as used by ports_matching.
On POSIX systems os.path.normcase is the identity, so the match is
case-sensitive. -/
def fnmatch (nm pattern : String) : Bool :=
  gmatch (pattern.toList.length + nm.toList.length + 1) pattern.toList nm.toList

/-- Translation of the ports property of MidiInMulti (src lines 343..346):
the inspector port names in index order, keeping only the truthy (nonempty)
ones. -/
def MidiInMulti.ports (prov : Provider) : List String :=
  ((List.range prov.getPortCount).map (fun i => prov.getPortName i)).filter
    (fun s => s != "")

/-- The list comprehension [i for i, port in enumerate(ports) if pred(port)]:
indices counted from n of the elements satisfying pred. -/
def matchIdx (pred : String → Bool) : Nat → List String → List Nat
  | _, [] => []
  | i, p :: rest =>
    if pred p then i :: matchIdx pred (i + 1) rest else matchIdx pred (i + 1) rest

/-- Translation of MidiInMulti.ports_matching (src lines 358..376): the
positions in the ports list whose name matches the glob pattern, dropping
those that also match the exclude glob when one is given.  The method only
reads the inspector enumeration, so it is a function of the provider
alone. -/
def MidiInMulti.ports_matching (prov : Provider) (pattern : String)
    (exclude : Option String) : List Nat :=
  match exclude with
  | none => matchIdx (fun port => fnmatch port pattern) 0 (MidiInMulti.ports prov)
  | some ex =>
    matchIdx (fun port => fnmatch port pattern && !(fnmatch port ex)) 0
      (MidiInMulti.ports prov)

/-- Inner loop of open_ports over the matches of one pattern, threading the
hub state and accumulating the native trace; an exception from open_port
propagates with the state it left behind. -/
def openMatches (prov : Provider) :
    List Nat → MidiInMulti → List NCall → Except PyErr Unit × MidiInMulti × List NCall
  | [], hub, acc => (Except.ok (), hub, acc)
  | p :: rest, hub, acc =>
    match MidiInMulti.open_port prov hub p with
    | (Except.ok _, hub2, tr) => openMatches prov rest hub2 (acc ++ tr)
    | (Except.error e, hub2, tr) => (Except.error e, hub2, acc ++ tr)

/-- Translation of MidiInMulti.open_ports (src lines 410..433): for each
pattern, open every port whose name matches (minus the exclude matches), by
calling open_port on each index in enumeration order. -/
def MidiInMulti.open_ports (prov : Provider) (hub : MidiInMulti)
    (patterns : List String) (exclude : Option String) :
    Except PyErr Unit × MidiInMulti × List NCall :=
  match patterns with
  | [] => (Except.ok (), hub, [])
  | pat :: rest =>
    match openMatches prov (MidiInMulti.ports_matching prov pat exclude) hub [] with
    | (Except.ok _, hub2, tr) =>
      let r := MidiInMulti.open_ports prov hub2 rest exclude
      (r.1, r.2.1, tr ++ r.2.2)
    | (Except.error e, hub2, tr) => (Except.error e, hub2, tr)

/-- Translation of splitchannel (src lines 570..581). -/
def splitchannel (b : Nat) : Nat × Nat := (b &&& 0xF0, b &&& 0x0F)

/-- NOTEON status nibble (DEF DNOTEON, src line 24). -/
def DNOTEON : Nat := 144

/-- CC status nibble (DEF DCC, src line 25). -/
def DCC : Nat := 176

/-- NOTEOFF status nibble (DEF DNOTEOFF, src line 26). -/
def DNOTEOFF : Nat := 128

/-- PROGCHANGE status nibble (DEF DPROGCHANGE, src line 27). -/
def DPROGCHANGE : Nat := 192

/-- PITCHWHEEL status nibble (DEF DPITCHWHEEL, src line 28). -/
def DPITCHWHEEL : Nat := 224

/-- State of a MidiOut object as far as _send_raw uses it: the reusable
three-byte vector msg3 and the lock flag guarding it. -/
structure MidiOut where
  msg3 : List Nat
  msg3_locked : Bool
deriving DecidableEq

/-- State of a freshly constructed MidiOut (__cinit__, src lines 654..662). -/
def MidiOut.initial : MidiOut := { msg3 := [0, 0, 0], msg3_locked := false }

/-- Translation of MidiOut._send_raw (src lines 710..726): sends exactly one
three-byte message through the native sendMessage, using a fresh vector when
msg3 is locked and the reusable msg3 otherwise (the lock is taken and
released around the send, so it is clear again on return).  The returned
list is the trace of messages handed to the native layer. -/
def MidiOut._send_raw (o : MidiOut) (b0 b1 b2 : Nat) : MidiOut × List (List Nat) :=
  if o.msg3_locked then (o, [[b0, b1, b2]])
  else ({ o with msg3 := [b0, b1, b2] }, [[b0, b1, b2]])

/-- Translation of MidiOut.send_pitchbend (src lines 689..708): values above
16383 return silently; otherwise the value is split into a 7-bit low byte
and a 7-bit high byte and sent with status DPITCHWHEEL+channel.  The b0
argument of _send_raw is a C unsigned char, hence the reduction mod 256. -/
def MidiOut.send_pitchbend (o : MidiOut) (channel transp : Nat) :
    MidiOut × List (List Nat) :=
  if 16383 < transp then (o, [])
  else MidiOut._send_raw o ((DPITCHWHEEL + channel) % 256) (transp &&& 127) (transp >>> 7)

/-- What a user handler invocation looks like when the native layer delivers
an event: the two-argument convention gets (message, timestamp), the
three-argument convention gets (source, message, timestamp) with the source
captured at registration time (midi_in_callback and
midi_in_callback_with_src, src lines 163..170). -/
inductive Invocation where
  | two (cb : PyFunc) (msg : List Nat) (t : Nat)
  | three (src : Source) (cb : PyFunc) (msg : List Nat) (t : Nat)
deriving DecidableEq

/-- Dispatch of one injected native event on the handle at arena index id.
A closed or unregistered handle delivers nothing; otherwise the registered
trampoline invokes the user handler with the convention and captured context
chosen at registration time. -/
def injectEvent (hub : MidiInMulti) (id : Nat) (msg : List Nat) (t : Nat) :
    Option Invocation :=
  let h := hub.handles.getD id hdefault
  if h.isOpen then
    match h.registered with
    | none => none
    | some (NativeReg.plain cb) => some (Invocation.two cb msg t)
    | some (NativeReg.withSrc s cb) => some (Invocation.three s cb msg t)
  else none

/-- The observable skeleton of the hub tracking structures: the ptrs vector
(as arena indices), the _openedports list, and the port each arena handle
was opened for.  Callback bookkeeping changes state outside the skeleton. -/
def MidiInMulti.skel (hub : MidiInMulti) : List Nat × List Nat × List Nat :=
  (hub.ptrs, hub.openedports, hub.handles.map (fun h => h.srcport))

/-- Lock-step invariant over a skeleton: ptrs and the opened list have the
same length, and the handle referenced at each position was opened for the
port index stored at the same position. -/
def lockstepOf : List Nat × List Nat × List Nat → Bool
  | (ptrs, opened, srcs) =>
    (ptrs.length == opened.length) &&
    (ptrs.zip opened).all (fun ip =>
      decide (ip.1 < srcs.length) && (srcs.getD ip.1 0 == ip.2))

/-- The lock-step invariant of a hub: the ptrs vector and _openedports
correspond position by position. -/
def MidiInMulti.lockstep (hub : MidiInMulti) : Bool := lockstepOf hub.skel

/-- Projection of a native closePort call out of a trace entry. -/
def closePortId : NCall → Option Nat
  | NCall.closePort id => some id
  | _ => none

/-- The OutOfRange failure of the spec: ValueError("Port out of range"). -/
def OutOfRange : PyErr := PyErr.valueError "Port out of range"

/-- The AlreadyOpen failure of the spec: ValueError("Port already open!"). -/
def AlreadyOpen : PyErr := PyErr.valueError "Port already open!"

/-- The InvalidCallback failure of the spec: the ValueError raised by
set_callback for an unsupported arity. -/
def InvalidCallback : PyErr := PyErr.valueError "Your callback has to have either the signature (msg, time) or the signature (source, msg, time)"

/-- The UnsupportedOperation failure of the spec: the NotImplementedError
that get_message is documented to raise. -/
def UnsupportedOperation : PyErr := PyErr.notImplementedError "The blocking interface is not implemented for multiple inputs. Use the callback system"

/-- A two-port provider used for concrete scenarios. -/
def prov2 : Provider := ⟨["A", "B"]⟩

/-- The provider enumeration of testable property 7 of the spec. -/
def provIAC : Provider := ⟨["IAC Driver Bus 1", "IAC Driver Old", "USB MIDI"]⟩

/-- A three-argument handler: callback(src, msg, time). -/
def f3ex : PyFunc := ⟨0, some ["src", "msg", "time"]⟩

/-- A two-argument handler: callback(msg, time). -/
def f2ex : PyFunc := ⟨1, some ["msg", "time"]⟩

/-- A one-argument handler, unsupported by set_callback. -/
def f1ex : PyFunc := ⟨2, some ["msg"]⟩

/-- Hub with port 1 of prov2 open and no callback installed. -/
def hub31 : MidiInMulti := (MidiInMulti.open_port prov2 MidiInMulti.initial 1).2.1

/-- Hub with port 1 of prov2 open and the two-argument handler installed:
the handle is natively registered and hascallback maps port 1 to True. -/
def hub32 : MidiInMulti := (MidiInMulti.set_callback prov2 hub31 f2ex true).2.1

/-- Hub with port 0 of prov2 open and the three-argument handler installed
in index mode (src_as_string=False): the registered context is the port
number, Source.index 0. -/
def hubC1 : MidiInMulti :=
  (MidiInMulti.set_callback prov2
    (MidiInMulti.open_port prov2 MidiInMulti.initial 0).2.1 f3ex false).2.1

/-! Helper lemmas about the arena update and the list operations the hub
uses.  These are shared by several of the claim theorems below. -/

theorem length_updAt (f : NativeHandle → NativeHandle) :
    ∀ (hs : List NativeHandle) (id : Nat), (updAt f hs id).length = hs.length := by
  intro hs
  induction hs with
  | nil => intro id; rfl
  | cons h t ih =>
    intro id
    cases id with
    | zero => rfl
    | succ n => simp [updAt, ih]

theorem getD_updAt_ne (f : NativeHandle → NativeHandle) :
    ∀ (hs : List NativeHandle) (id j : Nat) (d : NativeHandle), j ≠ id →
      (updAt f hs id).getD j d = hs.getD j d := by
  intro hs
  induction hs with
  | nil => intro id j d _; rfl
  | cons h t ih =>
    intro id j d hne
    cases id with
    | zero =>
      cases j with
      | zero => exact absurd rfl hne
      | succ m => simp [updAt, List.getD_cons_succ]
    | succ n =>
      cases j with
      | zero => simp [updAt, List.getD_cons_zero]
      | succ m =>
        simp only [updAt, List.getD_cons_succ]
        exact ih n m d (fun hc => hne (by rw [hc]))

theorem getD_updAt_self (f : NativeHandle → NativeHandle) :
    ∀ (hs : List NativeHandle) (id : Nat) (d : NativeHandle), id < hs.length →
      (updAt f hs id).getD id d = f (hs.getD id d) := by
  intro hs
  induction hs with
  | nil => intro id d hid; simp at hid
  | cons h t ih =>
    intro id d hid
    cases id with
    | zero => rfl
    | succ n =>
      simp only [updAt, List.getD_cons_succ]
      exact ih n d (by simpa using hid)

theorem map_srcport_updAt (f : NativeHandle → NativeHandle)
    (hf : ∀ h, (f h).srcport = h.srcport) :
    ∀ (hs : List NativeHandle) (id : Nat),
      (updAt f hs id).map (fun h => h.srcport) = hs.map (fun h => h.srcport) := by
  intro hs
  induction hs with
  | nil => intro id; rfl
  | cons h t ih =>
    intro id
    cases id with
    | zero => simp [updAt, hf]
    | succ n => simp [updAt, ih]

theorem zip_snoc (a b : List Nat) (x y : Nat) (h : a.length = b.length) :
    (a ++ [x]).zip (b ++ [y]) = a.zip b ++ [(x, y)] := by
  rw [List.zip_append h]
  rfl

theorem mem_of_mem_eraseIdx {α : Type} (x : α) :
    ∀ (l : List α) (k : Nat), x ∈ l.eraseIdx k → x ∈ l := by
  intro l
  induction l with
  | nil => intro k h; simp [List.eraseIdx] at h
  | cons a t ih =>
    intro k h
    cases k with
    | zero => exact List.mem_cons_of_mem a h
    | succ n =>
      rcases List.mem_cons.mp h with h1 | h2
      · exact List.mem_cons.mpr (Or.inl h1)
      · exact List.mem_cons_of_mem a (ih n h2)

theorem length_eraseIdx_congr {α β : Type} :
    ∀ (a : List α) (b : List β) (k : Nat), a.length = b.length →
      (a.eraseIdx k).length = (b.eraseIdx k).length := by
  intro a
  induction a with
  | nil =>
    intro b k h
    cases b with
    | nil => rfl
    | cons y bt => simp at h
  | cons x at' ih =>
    intro b k h
    cases b with
    | nil => simp at h
    | cons y bt =>
      cases k with
      | zero => simpa using h
      | succ n =>
        simp only [List.eraseIdx, List.length_cons]
        exact congrArg Nat.succ (ih bt n (by simpa using h))

theorem zip_eraseIdx :
    ∀ (a b : List Nat) (k : Nat), a.length = b.length →
      (a.eraseIdx k).zip (b.eraseIdx k) = (a.zip b).eraseIdx k := by
  intro a
  induction a with
  | nil =>
    intro b k h
    cases b with
    | nil => rfl
    | cons y bt => simp at h
  | cons x at' ih =>
    intro b k h
    cases b with
    | nil => simp at h
    | cons y bt =>
      cases k with
      | zero => rfl
      | succ n =>
        simp only [List.eraseIdx, List.zip_cons_cons]
        rw [ih bt n (by simpa using h)]
        rfl

theorem mem_zip_of_mem_left :
    ∀ (a b : List Nat), a.length = b.length →
      ∀ x ∈ a, ∃ p ∈ a.zip b, p.1 = x := by
  intro a
  induction a with
  | nil => intro b h x hx; simp at hx
  | cons v at' ih =>
    intro b h x hx
    cases b with
    | nil => simp at h
    | cons w bt =>
      rcases List.mem_cons.mp hx with h1 | h2
      · exact ⟨(v, w), by simp, by simp [h1]⟩
      · rcases ih bt (by simpa using h) x h2 with ⟨p, hp, hpx⟩
        exact ⟨p, by simp [hp], hpx⟩

theorem lockstepOf_iff (ptrs opened srcs : List Nat) :
    lockstepOf (ptrs, opened, srcs) = true ↔
      ptrs.length = opened.length ∧
        ∀ ip ∈ ptrs.zip opened, ip.1 < srcs.length ∧ srcs.getD ip.1 0 = ip.2 := by
  simp [lockstepOf, List.all_eq_true, Bool.and_eq_true, beq_iff_eq,
    decide_eq_true_eq, and_assoc]

theorem lockstepOf_push (ptrs opened srcs : List Nat) (p : Nat)
    (h : lockstepOf (ptrs, opened, srcs) = true) :
    lockstepOf (ptrs ++ [srcs.length], opened ++ [p], srcs ++ [p]) = true := by
  rcases (lockstepOf_iff ptrs opened srcs).mp h with ⟨hlen, hall⟩
  apply (lockstepOf_iff _ _ _).mpr
  constructor
  · simp [hlen]
  · intro ip hip
    rw [zip_snoc ptrs opened _ p hlen] at hip
    rcases List.mem_append.mp hip with hold | hnew
    · rcases hall ip hold with ⟨hlt, hget⟩
      refine ⟨by simp; omega, ?_⟩
      rw [List.getD_append srcs [p] 0 ip.1 hlt]
      exact hget
    · have : ip = (srcs.length, p) := by simpa using hnew
      subst this
      refine ⟨by simp, ?_⟩
      rw [List.getD_append_right srcs [p] 0 srcs.length (Nat.le_refl _)]
      simp

theorem lockstepOf_erase (ptrs opened srcs : List Nat) (k : Nat)
    (h : lockstepOf (ptrs, opened, srcs) = true) :
    lockstepOf (ptrs.eraseIdx k, opened.eraseIdx k, srcs) = true := by
  rcases (lockstepOf_iff ptrs opened srcs).mp h with ⟨hlen, hall⟩
  apply (lockstepOf_iff _ _ _).mpr
  constructor
  · exact length_eraseIdx_congr ptrs opened k hlen
  · intro ip hip
    rw [zip_eraseIdx ptrs opened k hlen] at hip
    exact hall ip (mem_of_mem_eraseIdx ip (ptrs.zip opened) k hip)

theorem skel_cancelAt (hub : MidiInMulti) (id : Nat) :
    (MidiInMulti.cancelAt hub id).skel = hub.skel := by
  simp [MidiInMulti.cancelAt, MidiInMulti.skel,
    map_srcport_updAt (fun h => { h with registered := none }) (fun h => rfl)]

theorem skel_registerAt (hub : MidiInMulti) (id : Nat) (r : NativeReg) :
    (MidiInMulti.registerAt hub id r).skel = hub.skel := by
  simp [MidiInMulti.registerAt, MidiInMulti.skel,
    map_srcport_updAt (fun h => { h with registered := some r }) (fun h => rfl)]

theorem skel_closeHandle (hub : MidiInMulti) (id : Nat) :
    (MidiInMulti.closeHandle hub id).skel = hub.skel := by
  simp [MidiInMulti.closeHandle, MidiInMulti.skel,
    map_srcport_updAt (fun h => { h with isOpen := false }) (fun h => rfl)]

theorem cancelLoop_skel : ∀ (l : List (Nat × Nat)) (hub : MidiInMulti),
    (cancelLoop l hub).1.skel = hub.skel := by
  intro l
  induction l with
  | nil => intro hub; rfl
  | cons ip rest ih =>
    intro hub
    obtain ⟨id, port⟩ := ip
    simp only [cancelLoop]
    split
    · rw [ih]
      simp [MidiInMulti.skel, MidiInMulti.cancelAt,
        map_srcport_updAt (fun h => { h with registered := none }) (fun h => rfl)]
    · exact ih hub

theorem regLoop_skel (cb : PyFunc) : ∀ (l : List (Nat × Nat)) (hub : MidiInMulti),
    (regLoop cb l hub).1.skel = hub.skel := by
  intro l
  induction l with
  | nil => intro hub; rfl
  | cons ip rest ih =>
    intro hub
    obtain ⟨id, port⟩ := ip
    simp only [regLoop]
    rw [ih]
    by_cases hd : dget hub.hascallback port
    · simp [hd, MidiInMulti.skel, MidiInMulti.cancelAt, MidiInMulti.registerAt,
        map_srcport_updAt (fun h => { h with registered := none }) (fun h => rfl),
        map_srcport_updAt (fun h => { h with registered := some (NativeReg.plain cb) })
          (fun h => rfl)]
    · simp [hd, MidiInMulti.skel, MidiInMulti.registerAt,
        map_srcport_updAt (fun h => { h with registered := some (NativeReg.plain cb) })
          (fun h => rfl)]

theorem qualLoop_skel (prov : Provider) (cb : PyFunc) (b : Bool) :
    ∀ (l : List (Nat × Nat)) (hub : MidiInMulti),
      (qualLoop prov cb b l hub).1.skel = hub.skel := by
  intro l
  induction l with
  | nil => intro hub; rfl
  | cons ip rest ih =>
    intro hub
    obtain ⟨id, port⟩ := ip
    simp only [qualLoop]
    rw [ih]
    by_cases hd : dget hub.hascallback port
    · simp [hd, MidiInMulti.skel, MidiInMulti.cancelAt, MidiInMulti.registerAt,
        map_srcport_updAt (fun h => { h with registered := none }) (fun h => rfl),
        map_srcport_updAt (fun h => { h with registered := some (NativeReg.withSrc
          (if b then Source.name (prov.getPortName port) else Source.index port) cb) })
          (fun h => rfl)]
    · simp [hd, MidiInMulti.skel, MidiInMulti.registerAt,
        map_srcport_updAt (fun h => { h with registered := some (NativeReg.withSrc
          (if b then Source.name (prov.getPortName port) else Source.index port) cb) })
          (fun h => rfl)]

theorem cancel_callbacks_skel (hub : MidiInMulti) :
    (MidiInMulti._cancel_callbacks hub).1.skel = hub.skel := by
  simp only [MidiInMulti._cancel_callbacks]
  rw [show ({ (cancelLoop (hub.ptrs.zip hub.openedports) hub).1 with py_callback := none
        } : MidiInMulti).skel
      = (cancelLoop (hub.ptrs.zip hub.openedports) hub).1.skel from rfl]
  exact cancelLoop_skel _ hub

theorem set_qualified_skel (prov : Provider) (hub : MidiInMulti) (cb : PyFunc) (b : Bool) :
    (MidiInMulti._set_qualified_callback prov hub cb b).1.skel = hub.skel := by
  simp only [MidiInMulti._set_qualified_callback]
  rw [qualLoop_skel]
  simp [MidiInMulti.skel]

theorem callback_assign_skel (prov : Provider) (hub : MidiInMulti) (v : Option PyFunc) :
    (MidiInMulti.callback_assign prov hub v).1.skel = hub.skel := by
  cases v with
  | none => exact cancel_callbacks_skel hub
  | some cb =>
    simp only [MidiInMulti.callback_assign]
    cases hn : _func_get_numargs cb with
    | none => rw [regLoop_skel]; simp [MidiInMulti.skel]
    | some numargs =>
      by_cases h3 : numargs = 3
      · simp only [h3, if_true]
        exact set_qualified_skel prov hub cb true
      · simp only [h3, if_false]
        rw [regLoop_skel]
        simp [MidiInMulti.skel]

theorem lockstep_of_skel_eq (hub hub2 : MidiInMulti)
    (hs : hub2.skel = hub.skel) (h : hub.lockstep = true) : hub2.lockstep = true := by
  rw [MidiInMulti.lockstep, hs]
  exact h

theorem lockstep_push (hub : MidiInMulti) (p : Nat) (h : hub.lockstep = true) :
    ({ hub with
        handles := hub.handles ++ [{ srcport := p, isOpen := true, registered := none }],
        ptrs := hub.ptrs ++ [hub.handles.length],
        openedports := hub.openedports ++ [p] } : MidiInMulti).lockstep = true := by
  have h0 : lockstepOf (hub.ptrs, hub.openedports,
      hub.handles.map (fun x => x.srcport)) = true := h
  have hp := lockstepOf_push hub.ptrs hub.openedports
    (hub.handles.map (fun x => x.srcport)) p h0
  have hlen : (hub.handles.map (fun x => x.srcport)).length = hub.handles.length := by simp
  rw [hlen] at hp
  show lockstepOf (hub.ptrs ++ [hub.handles.length], hub.openedports ++ [p],
    (hub.handles ++ [({ srcport := p, isOpen := true, registered := none } : NativeHandle)]).map
      (fun x => x.srcport)) = true
  rw [List.map_append]
  exact hp

theorem lockstep_open_port (prov : Provider) (hub : MidiInMulti) (p : Nat)
    (h : hub.lockstep = true) :
    ((MidiInMulti.open_port prov hub p).2.1).lockstep = true := by
  simp only [MidiInMulti.open_port]
  split
  · exact h
  · split
    · exact h
    · cases hpc : hub.py_callback with
      | none =>
        simp only [hpc]
        exact lockstep_push hub p h
      | some cb =>
        simp only [hpc]
        refine lockstep_of_skel_eq _ _ ?_ (lockstep_push hub p h)
        rw [callback_assign_skel, cancel_callbacks_skel]
        simp [MidiInMulti.skel]

theorem lockstep_eraseBoth (hub hub2 : MidiInMulti) (k : Nat)
    (hs : hub2.skel = hub.skel) (h : hub.lockstep = true) :
    ({ hub2 with
        ptrs := hub2.ptrs.eraseIdx k,
        openedports := hub2.openedports.eraseIdx k } : MidiInMulti).lockstep = true := by
  have c1 : hub2.ptrs = hub.ptrs := congrArg (fun t => t.1) hs
  have c2 : hub2.openedports = hub.openedports := congrArg (fun t => t.2.1) hs
  have c3 : hub2.handles.map (fun x => x.srcport) = hub.handles.map (fun x => x.srcport) :=
    congrArg (fun t => t.2.2) hs
  have h0 : lockstepOf (hub.ptrs, hub.openedports,
      hub.handles.map (fun x => x.srcport)) = true := h
  show lockstepOf (hub2.ptrs.eraseIdx k, hub2.openedports.eraseIdx k,
    hub2.handles.map (fun x => x.srcport)) = true
  rw [c1, c2, c3]
  exact lockstepOf_erase hub.ptrs hub.openedports (hub.handles.map (fun x => x.srcport)) k h0

theorem lockstep_close_port (hub : MidiInMulti) (p : Nat) (h : hub.lockstep = true) :
    ((MidiInMulti.close_port hub p).2.1).lockstep = true := by
  simp only [MidiInMulti.close_port]
  split
  · refine lockstep_eraseBoth hub _ (hub.openedports.indexOf p) ?_ h
    rw [skel_closeHandle]
    by_cases hd : dget hub.hascallback (hub.openedports.indexOf p)
    · rw [if_pos hd]
      exact skel_cancelAt hub _
    · rw [if_neg hd]
  · exact h

theorem lockstep_close_ports (hub : MidiInMulti) :
    ((MidiInMulti.close_ports hub).2.1).lockstep = true := by
  simp [MidiInMulti.close_ports, MidiInMulti.lockstep, MidiInMulti.skel, lockstepOf]

theorem lockstep_callback_assign (prov : Provider) (hub : MidiInMulti) (v : Option PyFunc)
    (h : hub.lockstep = true) :
    ((MidiInMulti.callback_assign prov hub v).1).lockstep = true := by
  rw [MidiInMulti.lockstep, callback_assign_skel]
  exact h

theorem lockstep_set_callback (prov : Provider) (hub : MidiInMulti) (cb : PyFunc) (b : Bool)
    (h : hub.lockstep = true) :
    ((MidiInMulti.set_callback prov hub cb b).2.1).lockstep = true := by
  simp only [MidiInMulti.set_callback]
  cases hn : _func_get_numargs cb with
  | none => exact h
  | some numargs =>
    by_cases h2 : numargs = 2
    · simp only [h2, if_true]
      exact lockstep_callback_assign prov hub (some cb) h
    · by_cases h3 : numargs = 3
      · simp only [h2, h3, if_false, if_true]
        show ((MidiInMulti._set_qualified_callback prov hub cb b).1).lockstep = true
        rw [MidiInMulti.lockstep, set_qualified_skel]
        exact h
      · simp only [h2, h3, if_false]
        exact h

theorem lockstep_openMatches (prov : Provider) :
    ∀ (ports : List Nat) (hub : MidiInMulti) (acc : List NCall), hub.lockstep = true →
      ((openMatches prov ports hub acc).2.1).lockstep = true := by
  intro ports
  induction ports with
  | nil => intro hub acc h; exact h
  | cons p rest ih =>
    intro hub acc h
    simp only [openMatches]
    have hstep := lockstep_open_port prov hub p h
    rcases hr : MidiInMulti.open_port prov hub p with ⟨ret, hub2, tr⟩
    rw [hr] at hstep
    cases ret with
    | ok u => exact ih hub2 (acc ++ tr) hstep
    | error e => exact hstep

theorem lockstep_open_ports (prov : Provider) :
    ∀ (patterns : List String) (exclude : Option String) (hub : MidiInMulti),
      hub.lockstep = true →
      ((MidiInMulti.open_ports prov hub patterns exclude).2.1).lockstep = true := by
  intro patterns
  induction patterns with
  | nil => intro ex hub h; exact h
  | cons pat rest ih =>
    intro ex hub h
    simp only [MidiInMulti.open_ports]
    have hstep := lockstep_openMatches prov
      (MidiInMulti.ports_matching prov pat ex) hub [] h
    rcases hr : openMatches prov (MidiInMulti.ports_matching prov pat ex) hub [] with
      ⟨ret, hub2, tr⟩
    rw [hr] at hstep
    cases ret with
    | ok u => exact ih ex hub2 hstep
    | error e => exact hstep

theorem updAt_ge (f : NativeHandle → NativeHandle) :
    ∀ (hs : List NativeHandle) (id : Nat), hs.length ≤ id → updAt f hs id = hs := by
  intro hs
  induction hs with
  | nil => intro id _; rfl
  | cons h t ih =>
    intro id hle
    cases id with
    | zero => simp at hle
    | succ n => simp only [updAt]; rw [ih n (by simpa using hle)]

theorem getD_updAt_isOpen (f : NativeHandle → NativeHandle)
    (hf : ∀ h, (f h).isOpen = h.isOpen) (hs : List NativeHandle) (id j : Nat) :
    ((updAt f hs id).getD j hdefault).isOpen = (hs.getD j hdefault).isOpen := by
  by_cases hj : j = id
  · subst hj
    by_cases hlt : j < hs.length
    · rw [getD_updAt_self f hs j hdefault hlt, hf]
    · rw [updAt_ge f hs j (Nat.le_of_not_lt hlt)]
  · rw [getD_updAt_ne f hs id j hdefault hj]

theorem isOpen_closeAt_self (hs : List NativeHandle) (id : Nat) :
    ((updAt (fun h => { h with isOpen := false }) hs id).getD id hdefault).isOpen = false := by
  by_cases hlt : id < hs.length
  · rw [getD_updAt_self _ hs id hdefault hlt]
  · rw [updAt_ge _ hs id (Nat.le_of_not_lt hlt)]
    rw [List.getD_eq_default _ _ (Nat.le_of_not_lt hlt)]
    rfl

theorem closeLoop_hcb : ∀ (l : List (Nat × Nat)) (hub : MidiInMulti),
    (closeLoop l hub).1.hascallback = hub.hascallback := by
  intro l
  induction l with
  | nil => intro hub; rfl
  | cons ip rest ih =>
    intro hub
    obtain ⟨id, port⟩ := ip
    simp only [closeLoop]
    rw [ih]
    by_cases hd : dget hub.hascallback port
    · rw [if_pos hd]
      rfl
    · rw [if_neg hd]
      rfl

theorem closeLoop_py : ∀ (l : List (Nat × Nat)) (hub : MidiInMulti),
    (closeLoop l hub).1.py_callback = hub.py_callback := by
  intro l
  induction l with
  | nil => intro hub; rfl
  | cons ip rest ih =>
    intro hub
    obtain ⟨id, port⟩ := ip
    simp only [closeLoop]
    rw [ih]
    by_cases hd : dget hub.hascallback port
    · rw [if_pos hd]
      rfl
    · rw [if_neg hd]
      rfl

theorem closeLoop_trace : ∀ (l : List (Nat × Nat)) (hub : MidiInMulti),
    ((closeLoop l hub).2).filterMap closePortId = l.map Prod.fst := by
  intro l
  induction l with
  | nil => intro hub; rfl
  | cons ip rest ih =>
    intro hub
    obtain ⟨id, port⟩ := ip
    simp only [closeLoop]
    by_cases hd : dget hub.hascallback port
    · rw [if_pos hd]
      simp only [List.filterMap_append, List.filterMap_cons, List.map_cons]
      rw [ih]
      rfl
    · rw [if_neg hd]
      simp only [List.filterMap_append, List.filterMap_cons, List.map_cons]
      rw [ih]
      rfl

theorem closeLoop_cancels : ∀ (l : List (Nat × Nat)) (hub : MidiInMulti),
    ∀ ip ∈ l, dget hub.hascallback ip.2 = true →
      NCall.cancelCallback ip.1 ∈ (closeLoop l hub).2 := by
  intro l
  induction l with
  | nil => intro hub ip hip; simp at hip
  | cons hd0 rest ih =>
    intro hub ip hip hcb
    obtain ⟨id, port⟩ := hd0
    simp only [closeLoop]
    rcases List.mem_cons.mp hip with heq | hmem
    · subst heq
      rw [if_pos hcb]
      simp
    · have hpres : dget (MidiInMulti.closeHandle
          (if dget hub.hascallback port then
            (MidiInMulti.cancelAt hub id, [NCall.cancelCallback id])
           else (hub, [])).1 id).hascallback ip.2 = true := by
        by_cases hd : dget hub.hascallback port
        · rw [if_pos hd]
          exact hcb
        · rw [if_neg hd]
          exact hcb
      by_cases hd : dget hub.hascallback port
      · rw [if_pos hd]
        rw [if_pos hd] at hpres
        have := ih _ ip hmem hpres
        simp only [List.mem_append, List.mem_cons]
        right
        right
        exact this
      · rw [if_neg hd]
        rw [if_neg hd] at hpres
        have := ih _ ip hmem hpres
        simp only [List.mem_append, List.mem_cons]
        right
        right
        exact this

theorem closeLoop_isOpen_mono : ∀ (l : List (Nat × Nat)) (hub : MidiInMulti) (j : Nat),
    (hub.handles.getD j hdefault).isOpen = false →
    (((closeLoop l hub).1.handles.getD j hdefault)).isOpen = false := by
  intro l
  induction l with
  | nil => intro hub j h; exact h
  | cons ip rest ih =>
    intro hub j h
    obtain ⟨id, port⟩ := ip
    simp only [closeLoop]
    by_cases hd : dget hub.hascallback port
    · rw [if_pos hd]
      apply ih
      simp only [MidiInMulti.closeHandle, MidiInMulti.cancelAt]
      by_cases hj : j = id
      · subst hj
        exact isOpen_closeAt_self _ j
      · rw [getD_updAt_ne _ _ id j hdefault hj,
          getD_updAt_isOpen (fun h => { h with registered := none }) (fun h => rfl) _ id j]
        exact h
    · rw [if_neg hd]
      apply ih
      simp only [MidiInMulti.closeHandle]
      by_cases hj : j = id
      · subst hj
        exact isOpen_closeAt_self _ j
      · rw [getD_updAt_ne _ _ id j hdefault hj]
        exact h

theorem closeLoop_closes : ∀ (l : List (Nat × Nat)) (hub : MidiInMulti),
    ∀ ip ∈ l, (((closeLoop l hub).1.handles.getD ip.1 hdefault)).isOpen = false := by
  intro l
  induction l with
  | nil => intro hub ip hip; simp at hip
  | cons hd0 rest ih =>
    intro hub ip hip
    obtain ⟨id, port⟩ := hd0
    rcases List.mem_cons.mp hip with heq | hmem
    · subst heq
      simp only [closeLoop]
      by_cases hd : dget hub.hascallback port
      · rw [if_pos hd]
        apply closeLoop_isOpen_mono
        simp only [MidiInMulti.closeHandle]
        exact isOpen_closeAt_self _ id
      · rw [if_neg hd]
        apply closeLoop_isOpen_mono
        simp only [MidiInMulti.closeHandle]
        exact isOpen_closeAt_self _ id
    · simp only [closeLoop]
      by_cases hd : dget hub.hascallback port
      · rw [if_pos hd]
        exact ih _ ip hmem
      · rw [if_neg hd]
        exact ih _ ip hmem

theorem cancelLoop_append : ∀ (l1 l2 : List (Nat × Nat)) (hub : MidiInMulti),
    (cancelLoop (l1 ++ l2) hub).1 = (cancelLoop l2 (cancelLoop l1 hub).1).1 := by
  intro l1
  induction l1 with
  | nil => intro l2 hub; rfl
  | cons ip rest ih =>
    intro l2 hub
    obtain ⟨id, port⟩ := ip
    simp only [List.cons_append, cancelLoop]
    by_cases hd : dget hub.hascallback port
    · rw [if_pos hd, if_pos hd]
      exact ih l2 _
    · rw [if_neg hd, if_neg hd]
      exact ih l2 hub

theorem regLoop_append (cb : PyFunc) : ∀ (l1 l2 : List (Nat × Nat)) (hub : MidiInMulti),
    (regLoop cb (l1 ++ l2) hub).1 = (regLoop cb l2 (regLoop cb l1 hub).1).1 := by
  intro l1
  induction l1 with
  | nil => intro l2 hub; rfl
  | cons ip rest ih =>
    intro l2 hub
    obtain ⟨id, port⟩ := ip
    simp only [List.cons_append, regLoop]
    exact ih l2 _

theorem qualLoop_append (prov : Provider) (cb : PyFunc) (b : Bool) :
    ∀ (l1 l2 : List (Nat × Nat)) (hub : MidiInMulti),
      (qualLoop prov cb b (l1 ++ l2) hub).1
        = (qualLoop prov cb b l2 (qualLoop prov cb b l1 hub).1).1 := by
  intro l1
  induction l1 with
  | nil => intro l2 hub; rfl
  | cons ip rest ih =>
    intro l2 hub
    obtain ⟨id, port⟩ := ip
    simp only [List.cons_append, qualLoop]
    exact ih l2 _

theorem cancelLoop_getD_notin : ∀ (l : List (Nat × Nat)) (hub : MidiInMulti) (j : Nat),
    (∀ ip ∈ l, ip.1 ≠ j) →
    (cancelLoop l hub).1.handles.getD j hdefault = hub.handles.getD j hdefault := by
  intro l
  induction l with
  | nil => intro hub j _; rfl
  | cons ip rest ih =>
    intro hub j hj
    obtain ⟨id, port⟩ := ip
    have hid : id ≠ j := hj (id, port) (List.mem_cons_self _ _)
    have hrest : ∀ ip ∈ rest, ip.1 ≠ j := fun ip hip => hj ip (List.mem_cons_of_mem _ hip)
    simp only [cancelLoop]
    by_cases hd : dget hub.hascallback port
    · rw [if_pos hd]
      rw [ih _ j hrest]
      simp only [MidiInMulti.cancelAt]
      exact getD_updAt_ne _ _ id j hdefault (fun hc => hid hc.symm)
    · rw [if_neg hd]
      exact ih hub j hrest

theorem regLoop_getD_notin (cb : PyFunc) :
    ∀ (l : List (Nat × Nat)) (hub : MidiInMulti) (j : Nat),
      (∀ ip ∈ l, ip.1 ≠ j) →
      (regLoop cb l hub).1.handles.getD j hdefault = hub.handles.getD j hdefault := by
  intro l
  induction l with
  | nil => intro hub j _; rfl
  | cons ip rest ih =>
    intro hub j hj
    obtain ⟨id, port⟩ := ip
    have hid : id ≠ j := hj (id, port) (List.mem_cons_self _ _)
    have hrest : ∀ ip ∈ rest, ip.1 ≠ j := fun ip hip => hj ip (List.mem_cons_of_mem _ hip)
    simp only [regLoop]
    rw [ih _ j hrest]
    simp only [MidiInMulti.registerAt]
    rw [getD_updAt_ne _ _ id j hdefault (fun hc => hid hc.symm)]
    by_cases hd : dget hub.hascallback port
    · rw [if_pos hd]
      simp only [MidiInMulti.cancelAt]
      exact getD_updAt_ne _ _ id j hdefault (fun hc => hid hc.symm)
    · rw [if_neg hd]

theorem qualLoop_getD_notin (prov : Provider) (cb : PyFunc) (b : Bool) :
    ∀ (l : List (Nat × Nat)) (hub : MidiInMulti) (j : Nat),
      (∀ ip ∈ l, ip.1 ≠ j) →
      (qualLoop prov cb b l hub).1.handles.getD j hdefault = hub.handles.getD j hdefault := by
  intro l
  induction l with
  | nil => intro hub j _; rfl
  | cons ip rest ih =>
    intro hub j hj
    obtain ⟨id, port⟩ := ip
    have hid : id ≠ j := hj (id, port) (List.mem_cons_self _ _)
    have hrest : ∀ ip ∈ rest, ip.1 ≠ j := fun ip hip => hj ip (List.mem_cons_of_mem _ hip)
    simp only [qualLoop]
    rw [ih _ j hrest]
    simp only [MidiInMulti.registerAt]
    rw [getD_updAt_ne _ _ id j hdefault (fun hc => hid hc.symm)]
    by_cases hd : dget hub.hascallback port
    · rw [if_pos hd]
      simp only [MidiInMulti.cancelAt]
      exact getD_updAt_ne _ _ id j hdefault (fun hc => hid hc.symm)
    · rw [if_neg hd]

theorem cancelLoop_hlen (l : List (Nat × Nat)) (hub : MidiInMulti) :
    (cancelLoop l hub).1.handles.length = hub.handles.length := by
  have := congrArg (fun t => t.2.2.length) (cancelLoop_skel l hub)
  simpa [MidiInMulti.skel] using this

theorem regLoop_hlen (cb : PyFunc) (l : List (Nat × Nat)) (hub : MidiInMulti) :
    (regLoop cb l hub).1.handles.length = hub.handles.length := by
  have := congrArg (fun t => t.2.2.length) (regLoop_skel cb l hub)
  simpa [MidiInMulti.skel] using this

theorem qualLoop_hlen (prov : Provider) (cb : PyFunc) (b : Bool)
    (l : List (Nat × Nat)) (hub : MidiInMulti) :
    (qualLoop prov cb b l hub).1.handles.length = hub.handles.length := by
  have := congrArg (fun t => t.2.2.length) (qualLoop_skel prov cb b l hub)
  simpa [MidiInMulti.skel] using this

theorem regLoop_py (cb : PyFunc) : ∀ (l : List (Nat × Nat)) (hub : MidiInMulti),
    (regLoop cb l hub).1.py_callback = hub.py_callback := by
  intro l
  induction l with
  | nil => intro hub; rfl
  | cons ip rest ih =>
    intro hub
    obtain ⟨id, port⟩ := ip
    simp only [regLoop]
    rw [ih]
    by_cases hd : dget hub.hascallback port
    · rw [if_pos hd]
      rfl
    · rw [if_neg hd]
      rfl

theorem qualLoop_py (prov : Provider) (cb : PyFunc) (b : Bool) :
    ∀ (l : List (Nat × Nat)) (hub : MidiInMulti),
      (qualLoop prov cb b l hub).1.py_callback = hub.py_callback := by
  intro l
  induction l with
  | nil => intro hub; rfl
  | cons ip rest ih =>
    intro hub
    obtain ⟨id, port⟩ := ip
    simp only [qualLoop]
    rw [ih]
    by_cases hd : dget hub.hascallback port
    · rw [if_pos hd]
      rfl
    · rw [if_neg hd]
      rfl

theorem regLoop_single (cb : PyFunc) (id p : Nat) (hub : MidiInMulti)
    (hid : id < hub.handles.length) :
    (regLoop cb [(id, p)] hub).1.handles.getD id hdefault
      = { hub.handles.getD id hdefault with registered := some (NativeReg.plain cb) } := by
  simp only [regLoop]
  by_cases hd : dget hub.hascallback p
  · rw [if_pos hd]
    simp only [MidiInMulti.registerAt, MidiInMulti.cancelAt]
    rw [getD_updAt_self _ _ id hdefault (by rw [length_updAt]; exact hid)]
    rw [getD_updAt_self _ _ id hdefault hid]
  · rw [if_neg hd]
    simp only [MidiInMulti.registerAt]
    rw [getD_updAt_self _ _ id hdefault hid]

theorem qualLoop_single (prov : Provider) (cb : PyFunc) (b : Bool) (id p : Nat)
    (hub : MidiInMulti) (hid : id < hub.handles.length) :
    (qualLoop prov cb b [(id, p)] hub).1.handles.getD id hdefault
      = { hub.handles.getD id hdefault with
          registered := some (NativeReg.withSrc
            (if b then Source.name (prov.getPortName p) else Source.index p) cb) } := by
  simp only [qualLoop]
  by_cases hd : dget hub.hascallback p
  · rw [if_pos hd]
    simp only [MidiInMulti.registerAt, MidiInMulti.cancelAt]
    rw [getD_updAt_self _ _ id hdefault (by rw [length_updAt]; exact hid)]
    rw [getD_updAt_self _ _ id hdefault hid]
  · rw [if_neg hd]
    simp only [MidiInMulti.registerAt]
    rw [getD_updAt_self _ _ id hdefault hid]

theorem cancelLoop_single_unreg (id p : Nat) (hub : MidiInMulti)
    (hreg : (hub.handles.getD id hdefault).registered = none) :
    (cancelLoop [(id, p)] hub).1.handles.getD id hdefault
      = hub.handles.getD id hdefault := by
  simp only [cancelLoop]
  by_cases hd : dget hub.hascallback p
  · rw [if_pos hd]
    simp only [MidiInMulti.cancelAt]
    by_cases hlt : id < hub.handles.length
    · rw [getD_updAt_self _ _ id hdefault hlt]
      have : ({ hub.handles.getD id hdefault with registered := none } : NativeHandle)
          = hub.handles.getD id hdefault := by
        rw [← hreg]
      exact this
    · rw [updAt_ge _ _ id (Nat.le_of_not_lt hlt)]
  · rw [if_neg hd]

theorem getD_append_self (hs : List NativeHandle) (x : NativeHandle) :
    (hs ++ [x]).getD hs.length hdefault = x := by
  simp [List.getD_append_right]

theorem matchIdx_eq (pred : String → Bool) :
    ∀ (l : List String) (n : Nat),
      matchIdx pred n l
        = ((List.range l.length).filter (fun j => pred (l.getD j ""))).map
            (fun j => j + n) := by
  intro l
  induction l with
  | nil => intro n; rfl
  | cons a t ih =>
    intro n
    have hcomp : ((List.range t.length).map Nat.succ).filter
        (fun j => pred ((a :: t).getD j ""))
        = ((List.range t.length).filter (fun j => pred (t.getD j ""))).map Nat.succ := by
      rw [List.filter_map]
      congr 1
    have hfun : ((fun j => j + n) ∘ Nat.succ) = (fun j => j + (n + 1)) := by
      funext j
      simp [Function.comp]
      omega
    simp only [matchIdx, List.length_cons, List.range_succ_eq_map, List.filter_cons]
    by_cases hp : pred a
    · rw [ih]
      simp only [List.getD_cons_zero, hp, if_true]
      rw [hcomp]
      simp only [List.map_cons, List.map_map, hfun]
      simp
    · rw [ih]
      simp only [List.getD_cons_zero]
      rw [if_neg hp, if_neg hp, hcomp, List.map_map, hfun]

theorem injectEvent_closed (hub : MidiInMulti) (id : Nat) (msg : List Nat) (t : Nat)
    (h : (hub.handles.getD id hdefault).isOpen = false) :
    injectEvent hub id msg t = none := by
  simp only [injectEvent]
  rw [if_neg (by rw [h]; decide)]

/-- C2: open_port(i) fails with OutOfRange when i is at least the provider
port count, fails with AlreadyOpen when i is already among the open ports
(any open port index is below the provider count, which holds of every
reachable hub since open_port validates the bound before appending), and in
either failure case the hub state is unchanged and no native call is made. -/
theorem C2_open_port_failure (prov : Provider) (hub : MidiInMulti) (i : Nat) :
    (prov.getPortCount ≤ i →
      MidiInMulti.open_port prov hub i = (Except.error OutOfRange, hub, [])) ∧
    ((∀ q ∈ hub.openedports, q < prov.getPortCount) → i ∈ hub.openedports →
      MidiInMulti.open_port prov hub i = (Except.error AlreadyOpen, hub, [])) := by
  constructor
  · intro hge
    simp only [MidiInMulti.open_port]
    rw [if_pos hge]
    rfl
  · intro hinv hmem
    have hlt : i < prov.getPortCount := hinv i hmem
    simp only [MidiInMulti.open_port]
    rw [if_neg (Nat.not_le.mpr hlt), if_pos hmem]
    rfl

/-- C2 witness: port 5 is out of range for the two-port provider, and
reopening the open port 1 fails with AlreadyOpen; both failures leave the
hub exactly as it was. -/
theorem C2_open_port_failure_witness :
    prov2.getPortCount ≤ 5
    ∧ MidiInMulti.open_port prov2 MidiInMulti.initial 5
        = (Except.error OutOfRange, MidiInMulti.initial, [])
    ∧ (1 : Nat) ∈ hub31.openedports
    ∧ MidiInMulti.open_port prov2 hub31 1 = (Except.error AlreadyOpen, hub31, []) :=
  ⟨by decide, (C2_open_port_failure prov2 MidiInMulti.initial 5).1 (by decide),
   by decide, (C2_open_port_failure prov2 hub31 1).2 (by decide) (by decide)⟩

/-- C5: set_callback on a handler declaring a parameter count other than two
or three fails with InvalidCallback, and the failed call returns the hub
unchanged with no native call made - so the installed binding and every
handle registration are exactly as before. -/
theorem C5_set_callback_invalid (prov : Provider) (hub : MidiInMulti) (cb : PyFunc)
    (b : Bool) (n : Nat) (hn : _func_get_numargs cb = some n) (h2 : n ≠ 2) (h3 : n ≠ 3) :
    MidiInMulti.set_callback prov hub cb b = (Except.error InvalidCallback, hub, []) := by
  simp only [MidiInMulti.set_callback, hn]
  rw [if_neg h2, if_neg h3]
  rfl

/-- C5 witness: the one-argument handler is rejected on a hub that has a
two-argument binding installed, leaving that hub untouched. -/
theorem C5_set_callback_invalid_witness :
    _func_get_numargs f1ex = some 1
    ∧ MidiInMulti.set_callback prov2 hub32 f1ex true
        = (Except.error InvalidCallback, hub32, []) :=
  ⟨by decide,
   C5_set_callback_invalid prov2 hub32 f1ex true 1 (by decide) (by decide) (by decide)⟩

/-- C7: ports_matching returns exactly the indices (into the hub port
enumeration, in enumeration order) whose name matches the glob pattern,
minus those whose name also matches the exclude glob; being a function of
the provider enumeration alone it reads no hub state.  The second conjunct
is the concrete scenario of spec testable property 7. -/
theorem C7_ports_matching (prov : Provider) (pattern : String) (exclude : Option String) :
    MidiInMulti.ports_matching prov pattern exclude
      = (List.range (MidiInMulti.ports prov).length).filter (fun i =>
          fnmatch ((MidiInMulti.ports prov).getD i "") pattern &&
          (match exclude with
           | none => true
           | some ex => !(fnmatch ((MidiInMulti.ports prov).getD i "") ex)))
    ∧ MidiInMulti.ports_matching provIAC "IAC*" (some "IAC Driver Old") = [0] := by
  constructor
  · cases exclude with
    | none =>
      simp only [MidiInMulti.ports_matching]
      rw [matchIdx_eq]
      simp
    | some ex =>
      simp only [MidiInMulti.ports_matching]
      rw [matchIdx_eq]
      simp
  · decide

/-- C8: every call of the multi-port hub get_message fails - but with a
TypeError, because the source line raise NotImplemented(...) calls the
non-callable NotImplemented singleton - and the failed call leaves the hub
state unchanged and makes no native call.  The raised error is not the
NotImplementedError (UnsupportedOperation) the spec names. -/
theorem C8_get_message_raises (hub : MidiInMulti) (gettime : Nat) :
    MidiInMulti.get_message hub gettime
      = (Except.error (PyErr.typeError "NotImplementedType object is not callable"), hub, [])
    ∧ ((PyErr.typeError "NotImplementedType object is not callable")
        == UnsupportedOperation) = false :=
  ⟨rfl, by decide⟩

/-- C9: for every status nibble in the five supported message types and every
channel below 16, splitchannel is a left inverse of composing the status
byte by bitwise or. -/
theorem C9_splitchannel_inverse (mt ch : Nat)
    (hmt : mt ∈ [0x80, 0x90, 0xB0, 0xC0, 0xE0]) (hch : ch < 16) :
    splitchannel (mt ||| ch) = (mt, ch) := by
  fin_cases hmt <;> (revert hch; revert ch; decide)

/-- C9 witness: NOTEON on channel 5. -/
theorem C9_splitchannel_inverse_witness :
    (0x90 : Nat) ∈ [0x80, 0x90, 0xB0, 0xC0, 0xE0] ∧ (5 : Nat) < 16
    ∧ splitchannel (0x90 ||| 5) = (0x90, 5) :=
  ⟨by decide, by decide, C9_splitchannel_inverse 0x90 5 (by decide) (by decide)⟩

/-- C10: send_pitchbend with a value above 16383 sends nothing and raises
nothing; with a value at most 16383 it hands the native layer exactly one
three-byte message, status 0xE0 plus the channel, then the low seven bits,
then the remaining high bits - that is, value mod 128 followed by value
div 128. -/
theorem C10_send_pitchbend (o : MidiOut) (channel transp : Nat) (hch : channel ≤ 15) :
    (16383 < transp → MidiOut.send_pitchbend o channel transp = (o, [])) ∧
    (transp ≤ 16383 →
      (MidiOut.send_pitchbend o channel transp).2
        = [[0xE0 + channel, transp &&& 127, transp >>> 7]]
      ∧ transp &&& 127 = transp % 128 ∧ transp >>> 7 = transp / 128) := by
  constructor
  · intro hgt
    simp only [MidiOut.send_pitchbend]
    rw [if_pos hgt]
  · intro hle
    refine ⟨?_, ?_, ?_⟩
    · simp only [MidiOut.send_pitchbend]
      rw [if_neg (Nat.not_lt.mpr hle)]
      rw [show (DPITCHWHEEL + channel) % 256 = 0xE0 + channel from
        Nat.mod_eq_of_lt (by simp only [DPITCHWHEEL]; omega)]
      simp only [MidiOut._send_raw]
      by_cases hl : o.msg3_locked
      · rw [if_pos hl]
      · rw [if_neg hl]
    · have := Nat.and_pow_two_sub_one_eq_mod transp 7
      norm_num at this
      exact this
    · rw [Nat.shiftRight_eq_div_pow]

/-- C10 witness: center pitch on channel 3 sends the single message
(0xE3, 0, 64); the computed low and high bytes agree with mod and div. -/
theorem C10_send_pitchbend_witness :
    (3 : Nat) ≤ 15 ∧ (8192 : Nat) ≤ 16383
    ∧ (MidiOut.send_pitchbend MidiOut.initial 3 8192).2
        = [[0xE0 + 3, 8192 &&& 127, 8192 >>> 7]] :=
  ⟨by decide, by decide,
   ((C10_send_pitchbend MidiOut.initial 3 8192 (by decide)).2 (by decide)).1⟩

/-- C1 counterexample: with the three-argument handler installed in index
mode (src_as_string=False, context Source.index 0), opening port 1
re-registers the binding through the callback property, whose default is
name mode; the new handle ends up registered with the port NAME as source
context, not the port number, so the installed source mode is not applied.
The last conjunct records that the binding before the call really was in
index mode. -/
theorem C1_counterexample :
    ((MidiInMulti.open_port prov2 hubC1 1).2.1.handles.getD 1 hdefault).registered
        = some (NativeReg.withSrc (Source.name "B") f3ex)
    ∧ (((MidiInMulti.open_port prov2 hubC1 1).2.1.handles.getD 1 hdefault).registered
        == some (NativeReg.withSrc (Source.index 1) f3ex)) = false
    ∧ hubC1.qualified_callbacks = [(Source.index 0, f3ex)] := by
  decide

/-- C3: with only port 1 open and a two-argument callback registered (so
hascallback maps port 1 to True), close_port(1) looks the flag up under the
position key 0 instead of the port key 1, finds nothing, and so closes the
native handle WITHOUT cancelling the still-registered native callback - the
trace holds only the closePort call - while still reporting success,
emptying the tracking lists, and leaving the stale hascallback entry
behind.  The spec (and the dict keying used everywhere else in the class)
says the active callback is cancelled. -/
theorem C3_close_port_skips_cancel :
    (MidiInMulti.close_port hub32 1).1 = 1
    ∧ (MidiInMulti.close_port hub32 1).2.2 = [NCall.closePort 0]
    ∧ ((MidiInMulti.close_port hub32 1).2.1.handles.getD 0 hdefault).registered
        = some (NativeReg.plain f2ex)
    ∧ ((MidiInMulti.close_port hub32 1).2.1.handles.getD 0 hdefault).isOpen = false
    ∧ (MidiInMulti.close_port hub32 1).2.1.ptrs = []
    ∧ (MidiInMulti.close_port hub32 1).2.1.openedports = []
    ∧ dget (MidiInMulti.close_port hub32 1).2.1.hascallback 1 = true
    ∧ dget hub32.hascallback 1 = true := by
  decide

/-- C4 counterexample: close_ports on a hub with one open port and an
installed two-argument binding does cancel and close the handle and reset
the tracking lists, but the callback binding survives the call - py_callback
is still set afterwards, while the claim says the binding is cleared. -/
theorem C4_counterexample :
    ((MidiInMulti.close_ports hub32).2.1.py_callback).isSome = true
    ∧ (MidiInMulti.close_ports hub32).2.1.ptrs = []
    ∧ (MidiInMulti.close_ports hub32).2.1.openedports = []
    ∧ (MidiInMulti.close_ports hub32).2.1.hascallback = [] := by
  decide

/-- C6: the lock-step invariant - ptrs and _openedports have equal length
and the handle at each position was opened for the port index stored at the
same position - is preserved by every hub operation: open_port (on success
and on failure), open_ports (also when it stops on an exception), close_port,
close_ports, set_callback, and callback property assignment. -/
theorem C6_lockstep_preserved (prov : Provider) (hub : MidiInMulti)
    (h : hub.lockstep = true) :
    (∀ p, ((MidiInMulti.open_port prov hub p).2.1).lockstep = true) ∧
    (∀ patterns exclude,
      ((MidiInMulti.open_ports prov hub patterns exclude).2.1).lockstep = true) ∧
    (∀ p, ((MidiInMulti.close_port hub p).2.1).lockstep = true) ∧
    ((MidiInMulti.close_ports hub).2.1).lockstep = true ∧
    (∀ cb b, ((MidiInMulti.set_callback prov hub cb b).2.1).lockstep = true) ∧
    (∀ v, ((MidiInMulti.callback_assign prov hub v).1).lockstep = true) :=
  ⟨fun p => lockstep_open_port prov hub p h,
   fun patterns exclude => lockstep_open_ports prov patterns exclude hub h,
   fun p => lockstep_close_port hub p h,
   lockstep_close_ports hub,
   fun cb b => lockstep_set_callback prov hub cb b h,
   fun v => lockstep_callback_assign prov hub v h⟩

/-- C6 witness: the fresh hub satisfies the invariant and keeps it through a
concrete successful open_port. -/
theorem C6_lockstep_preserved_witness :
    MidiInMulti.initial.lockstep = true
    ∧ ((MidiInMulti.open_port prov2 MidiInMulti.initial 0).2.1).lockstep = true :=
  ⟨by decide, (C6_lockstep_preserved prov2 MidiInMulti.initial (by decide)).1 0⟩

/-- C4 (amended): close_ports closes every open handle in the order the
ports were opened - the closePort calls in its native trace are exactly the
ptrs vector in order - and cancels the native callback of every handle that
has one (stated under the hypothesis, true of the keying used by the
registration paths, that a registered handle has its port flagged in
hascallback); it resets ptrs, _openedports and hascallback to empty, is a
strict no-op when nothing is open and no stale flag exists, and afterwards
no injected event on any previously open handle invokes a handler.  Unlike
the original claim, the callback binding is NOT cleared: py_callback is
returned unchanged (see the counterexample). -/
theorem C4_close_ports (hub : MidiInMulti) (hlk : hub.lockstep = true)
    (hreg : ∀ ip ∈ hub.ptrs.zip hub.openedports,
      ((hub.handles.getD ip.1 hdefault).registered).isSome = true →
        dget hub.hascallback ip.2 = true) :
    ((MidiInMulti.close_ports hub).2.2).filterMap closePortId = hub.ptrs
    ∧ (∀ ip ∈ hub.ptrs.zip hub.openedports,
        ((hub.handles.getD ip.1 hdefault).registered).isSome = true →
          NCall.cancelCallback ip.1 ∈ (MidiInMulti.close_ports hub).2.2)
    ∧ (MidiInMulti.close_ports hub).2.1.ptrs = []
    ∧ (MidiInMulti.close_ports hub).2.1.openedports = []
    ∧ (MidiInMulti.close_ports hub).2.1.hascallback = []
    ∧ (MidiInMulti.close_ports hub).2.1.py_callback = hub.py_callback
    ∧ (hub.ptrs = [] → hub.openedports = [] → hub.hascallback = [] →
        MidiInMulti.close_ports hub = (1, hub, []))
    ∧ (∀ id ∈ hub.ptrs, ∀ msg t,
        injectEvent (MidiInMulti.close_ports hub).2.1 id msg t = none) := by
  have hlk0 : lockstepOf (hub.ptrs, hub.openedports,
      hub.handles.map (fun x => x.srcport)) = true := hlk
  have hlen : hub.ptrs.length = hub.openedports.length :=
    ((lockstepOf_iff hub.ptrs hub.openedports
      (hub.handles.map (fun x => x.srcport))).mp hlk0).1
  refine ⟨?_, ?_, rfl, rfl, rfl, ?_, ?_, ?_⟩
  · show ((closeLoop (hub.ptrs.zip hub.openedports) hub).2).filterMap closePortId = hub.ptrs
    rw [closeLoop_trace]
    exact List.map_fst_zip hub.ptrs hub.openedports (Nat.le_of_eq hlen)
  · intro ip hip hsome
    show NCall.cancelCallback ip.1 ∈ (closeLoop (hub.ptrs.zip hub.openedports) hub).2
    exact closeLoop_cancels _ hub ip hip (hreg ip hip hsome)
  · show (closeLoop (hub.ptrs.zip hub.openedports) hub).1.py_callback = hub.py_callback
    exact closeLoop_py _ hub
  · intro h1 h2 h3
    rcases hub with ⟨ha, hp, ho, hc, hpy, hq⟩
    simp only at h1 h2 h3
    subst h1
    subst h2
    subst h3
    rfl
  · intro id hid msg t
    obtain ⟨ip, hip, hfst⟩ := mem_zip_of_mem_left hub.ptrs hub.openedports hlen id hid
    apply injectEvent_closed
    show ((closeLoop (hub.ptrs.zip hub.openedports) hub).1.handles.getD id
      hdefault).isOpen = false
    rw [← hfst]
    exact closeLoop_closes _ hub ip hip

/-- C4 witness: on the hub with port 1 open and a two-argument binding, the
hypotheses hold by computation and close_ports closes handle 0 (the only
open pointer) while keeping the binding. -/
theorem C4_close_ports_witness :
    hub32.lockstep = true
    ∧ ((MidiInMulti.close_ports hub32).2.2).filterMap closePortId = hub32.ptrs
    ∧ (MidiInMulti.close_ports hub32).2.1.py_callback = hub32.py_callback :=
  ⟨by decide, (C4_close_ports hub32 (by decide) (by decide)).1,
   (C4_close_ports hub32 (by decide) (by decide)).2.2.2.2.2.1⟩

theorem set_qualified_py (prov : Provider) (hubC : MidiInMulti) (cb : PyFunc) (b : Bool) :
    (MidiInMulti._set_qualified_callback prov hubC cb b).1.py_callback = some cb := by
  simp only [MidiInMulti._set_qualified_callback]
  rw [qualLoop_py]

theorem callback_assign_py (prov : Provider) (hubC : MidiInMulti) (cb : PyFunc) :
    (MidiInMulti.callback_assign prov hubC (some cb)).1.py_callback = some cb := by
  cases hn : _func_get_numargs cb with
  | none =>
    simp only [MidiInMulti.callback_assign, hn]
    rw [regLoop_py]
  | some n =>
    simp only [MidiInMulti.callback_assign, hn]
    by_cases h3 : n = 3
    · rw [if_pos h3]
      exact set_qualified_py prov hubC cb true
    · rw [if_neg h3, regLoop_py]

theorem set_qualified_getD_last (prov : Provider) (hubC : MidiInMulti) (cb : PyFunc)
    (b : Bool) (zipOld : List (Nat × Nat)) (id p : Nat)
    (hzipC : hubC.ptrs.zip hubC.openedports = zipOld ++ [(id, p)])
    (hne : ∀ ip ∈ zipOld, ip.1 ≠ id)
    (hid : id < hubC.handles.length) :
    (MidiInMulti._set_qualified_callback prov hubC cb b).1.handles.getD id hdefault
      = { hubC.handles.getD id hdefault with
          registered := some (NativeReg.withSrc
            (if b then Source.name (prov.getPortName p) else Source.index p) cb) } := by
  simp only [MidiInMulti._set_qualified_callback]
  have hz2 : ({ hubC with
      py_callback := some cb,
      qualified_callbacks := [] } : MidiInMulti).ptrs.zip
      ({ hubC with
        py_callback := some cb,
        qualified_callbacks := [] } : MidiInMulti).openedports
      = zipOld ++ [(id, p)] := hzipC
  rw [hz2, qualLoop_append]
  rw [qualLoop_single prov cb b id p _ (by rw [qualLoop_hlen]; exact hid)]
  rw [qualLoop_getD_notin prov cb b zipOld _ id hne]

theorem reg_assign_getD_last (cb : PyFunc) (hubC : MidiInMulti)
    (zipOld : List (Nat × Nat)) (id p : Nat)
    (hzipC : hubC.ptrs.zip hubC.openedports = zipOld ++ [(id, p)])
    (hne : ∀ ip ∈ zipOld, ip.1 ≠ id)
    (hid : id < hubC.handles.length) :
    (regLoop cb (hubC.ptrs.zip hubC.openedports)
      ({ hubC with py_callback := some cb } : MidiInMulti)).1.handles.getD id hdefault
      = { hubC.handles.getD id hdefault with
          registered := some (NativeReg.plain cb) } := by
  rw [hzipC, regLoop_append]
  rw [regLoop_single cb id p _ (by rw [regLoop_hlen]; exact hid)]
  rw [regLoop_getD_notin cb zipOld _ id hne]

/-- C1 (amended): if a callback binding is installed and open_port(i)
succeeds, the binding - its handler and its arity classification - is
re-applied to the newly opened handle before open_port returns, so a
subsequent event on the new handle invokes the current handler with the
matching two- or three-argument convention without any further set_callback
call; HOWEVER, for a three-argument handler the source mode is reset to
name mode during the re-application (open_port reassigns through the
callback property, whose _set_qualified_callback call uses the default
src_as_string=True), so the source delivered is the port display name
regardless of the mode that was installed - the original claim fails on the
source-mode part, see the counterexample. -/
theorem C1_open_port_rebind (prov : Provider) (hub : MidiInMulti) (cb : PyFunc) (p : Nat)
    (hlk : hub.lockstep = true)
    (hcb : hub.py_callback = some cb)
    (hok : (MidiInMulti.open_port prov hub p).1 = Except.ok ()) :
    (MidiInMulti.open_port prov hub p).2.1.py_callback = some cb
    ∧ (_func_get_numargs cb = some 3 →
        ∀ msg t, injectEvent (MidiInMulti.open_port prov hub p).2.1 hub.handles.length msg t
          = some (Invocation.three (Source.name (prov.getPortName p)) cb msg t))
    ∧ (∀ n, _func_get_numargs cb = some n → n ≠ 3 →
        ∀ msg t, injectEvent (MidiInMulti.open_port prov hub p).2.1 hub.handles.length msg t
          = some (Invocation.two cb msg t))
    ∧ (_func_get_numargs cb = none →
        ∀ msg t, injectEvent (MidiInMulti.open_port prov hub p).2.1 hub.handles.length msg t
          = some (Invocation.two cb msg t)) := by
  have hg1 : ¬ prov.getPortCount ≤ p := by
    intro hge
    simp only [MidiInMulti.open_port] at hok
    rw [if_pos hge] at hok
    exact absurd hok (by simp)
  have hg2 : p ∉ hub.openedports := by
    intro hmem
    simp only [MidiInMulti.open_port] at hok
    rw [if_neg hg1, if_pos hmem] at hok
    exact absurd hok (by simp)
  have hres : (MidiInMulti.open_port prov hub p).2.1
      = (MidiInMulti.callback_assign prov
          (MidiInMulti._cancel_callbacks
            { handles := hub.handles ++
                [{ srcport := p, isOpen := true, registered := none }],
              ptrs := hub.ptrs ++ [hub.handles.length],
              openedports := hub.openedports ++ [p],
              hascallback := hub.hascallback,
              py_callback := some cb,
              qualified_callbacks := hub.qualified_callbacks }).1 (some cb)).1 := by
    simp only [MidiInMulti.open_port]
    rw [if_neg hg1, if_neg hg2, hcb]
  set hub1 : MidiInMulti :=
    { handles := hub.handles ++
        [({ srcport := p, isOpen := true, registered := none } : NativeHandle)],
      ptrs := hub.ptrs ++ [hub.handles.length],
      openedports := hub.openedports ++ [p],
      hascallback := hub.hascallback,
      py_callback := some cb,
      qualified_callbacks := hub.qualified_callbacks } with hh1
  set hubC : MidiInMulti := (MidiInMulti._cancel_callbacks hub1).1 with hhC
  have hlk0 : lockstepOf (hub.ptrs, hub.openedports,
      hub.handles.map (fun x => x.srcport)) = true := hlk
  rcases (lockstepOf_iff hub.ptrs hub.openedports
    (hub.handles.map (fun x => x.srcport))).mp hlk0 with ⟨hlen, hall⟩
  have hbound : ∀ ip ∈ hub.ptrs.zip hub.openedports, ip.1 < hub.handles.length := by
    intro ip hip
    have h1 := (hall ip hip).1
    simpa using h1
  have hne : ∀ ip ∈ hub.ptrs.zip hub.openedports, ip.1 ≠ hub.handles.length :=
    fun ip hip => Nat.ne_of_lt (hbound ip hip)
  have hzip : (hub.ptrs ++ [hub.handles.length]).zip (hub.openedports ++ [p])
      = hub.ptrs.zip hub.openedports ++ [(hub.handles.length, p)] :=
    zip_snoc _ _ _ _ hlen
  have hskelC : hubC.skel = hub1.skel := cancel_callbacks_skel hub1
  have hCp : hubC.ptrs = hub.ptrs ++ [hub.handles.length] :=
    congrArg (fun t => t.1) hskelC
  have hCo : hubC.openedports = hub.openedports ++ [p] :=
    congrArg (fun t => t.2.1) hskelC
  have hClen : hubC.handles.length = hub.handles.length + 1 := by
    have h2 := congrArg (fun t => t.2.2.length) hskelC
    simp only [MidiInMulti.skel, List.length_map] at h2
    rw [h2]
    show (hub.handles ++
      [({ srcport := p, isOpen := true, registered := none } : NativeHandle)]).length
      = hub.handles.length + 1
    simp
  have hidC : hub.handles.length < hubC.handles.length := by
    rw [hClen]
    omega
  have hzipC : hubC.ptrs.zip hubC.openedports
      = hub.ptrs.zip hub.openedports ++ [(hub.handles.length, p)] := by
    rw [hCp, hCo]
    exact hzip
  have hC : hubC.handles.getD hub.handles.length hdefault
      = { srcport := p, isOpen := true, registered := none } := by
    show (cancelLoop (hub1.ptrs.zip hub1.openedports) hub1).1.handles.getD
      hub.handles.length hdefault = _
    have hz1 : hub1.ptrs.zip hub1.openedports
        = hub.ptrs.zip hub.openedports ++ [(hub.handles.length, p)] := hzip
    rw [hz1, cancelLoop_append]
    have hmid : (cancelLoop (hub.ptrs.zip hub.openedports) hub1).1.handles.getD
        hub.handles.length hdefault
        = { srcport := p, isOpen := true, registered := none } := by
      rw [cancelLoop_getD_notin _ hub1 _ hne]
      exact getD_append_self hub.handles _
    rw [cancelLoop_single_unreg hub.handles.length p _ (by rw [hmid])]
    exact hmid
  refine ⟨?_, ?_, ?_, ?_⟩
  · rw [hres]
    exact callback_assign_py prov hubC cb
  · intro h3 msg t
    rw [hres]
    have hredux : (MidiInMulti.callback_assign prov hubC (some cb)).1
        = (MidiInMulti._set_qualified_callback prov hubC cb true).1 := by
      simp [MidiInMulti.callback_assign, h3]
    rw [hredux]
    have hreg3 := set_qualified_getD_last prov hubC cb true
      (hub.ptrs.zip hub.openedports) hub.handles.length p hzipC hne hidC
    rw [hC] at hreg3
    simp only [injectEvent]
    rw [hreg3]
    simp
  · intro n hn hn3 msg t
    rw [hres]
    have hredux : (MidiInMulti.callback_assign prov hubC (some cb)).1
        = (regLoop cb (hubC.ptrs.zip hubC.openedports)
            ({ hubC with py_callback := some cb } : MidiInMulti)).1 := by
      simp only [MidiInMulti.callback_assign, hn]
      rw [if_neg hn3]
    rw [hredux]
    have hreg2 := reg_assign_getD_last cb hubC
      (hub.ptrs.zip hub.openedports) hub.handles.length p hzipC hne hidC
    rw [hC] at hreg2
    simp only [injectEvent]
    rw [hreg2]
    simp
  · intro hnone msg t
    rw [hres]
    have hredux : (MidiInMulti.callback_assign prov hubC (some cb)).1
        = (regLoop cb (hubC.ptrs.zip hubC.openedports)
            ({ hubC with py_callback := some cb } : MidiInMulti)).1 := by
      simp only [MidiInMulti.callback_assign, hnone]
    rw [hredux]
    have hreg2 := reg_assign_getD_last cb hubC
      (hub.ptrs.zip hub.openedports) hub.handles.length p hzipC hne hidC
    rw [hC] at hreg2
    simp only [injectEvent]
    rw [hreg2]
    simp

/-- C1 witness: on the hub with the three-argument handler installed,
opening port 1 succeeds and an injected event on the new handle invokes the
handler with the port name as source, with no further set_callback call. -/
theorem C1_open_port_rebind_witness :
    hubC1.lockstep = true
    ∧ hubC1.py_callback = some f3ex
    ∧ (MidiInMulti.open_port prov2 hubC1 1).1 = Except.ok ()
    ∧ injectEvent (MidiInMulti.open_port prov2 hubC1 1).2.1 hubC1.handles.length
        [144, 60, 100] 0
      = some (Invocation.three (Source.name (prov2.getPortName 1)) f3ex [144, 60, 100] 0) :=
  ⟨by decide, by decide, rfl,
   (C1_open_port_rebind prov2 hubC1 f3ex 1 (by decide) (by decide) rfl).2.1
     (by decide) [144, 60, 100] 0⟩
